import Mathlib

/-!
Verification of the aerospike_ycsb benchmark module and of the fan-out
executor primitive it relies on.

The repository source (aerospike_ycsb_benchmark.py) contains the
orchestration functions `GetConfig`, `Prepare`, `Run` and `Cleanup`; these
are embedded below from the source.  The fan-out executor (`RunAll`, the
generalisation of the `vm_util.RunThreaded` helper the benchmark calls) is
not part of the shown source tree, so it is modelled from the
specification text, as marked by doc comments.
-/

namespace FanOut

/-- Modelled from the spec: the missing `vm_util.RunThreaded` executor,
generalised as `RunAll`.  A task pairs an opaque target with the action to
run on it; an action is a function from the target to a result or an
error. -/
structure Task (T R E : Type) where
  target : T
  action : T → Except E R

/-- Modelled from the spec: the outcome of a task is its successful result,
its captured action failure, or a cancellation marker, which the error
taxonomy of the spec reports distinctly from a genuine action failure. -/
inductive Outcome (R E : Type) where
  | success : R → Outcome R E
  | failure : E → Outcome R E
  | cancelled : Outcome R E
deriving DecidableEq

/-- Running one task: invoke the action on the target and capture the
result or the error. -/
def runTask {T R E : Type} (t : Task T R E) : Outcome R E :=
  match t.action t.target with
  | .ok r => .success r
  | .error e => .failure e

/-- True exactly on outcomes recording an action failure. -/
def Outcome.isFailure {R E : Type} : Outcome R E → Bool
  | .failure _ => true
  | _ => false

/-- The individual failures captured in a list of outcomes, in order. -/
def failuresOf {R E : Type} (outs : List (Outcome R E)) : List E :=
  outs.filterMap fun o =>
    match o with
    | .failure e => some e
    | _ => none

/-- Modelled from the spec: `RunAll` runs every submitted task to
completion, pairs each task with its outcome (one entry per input task, in
submission order), and fails with the aggregate of all individual failures
when one or more tasks fail, and with no error otherwise. -/
def RunAll {T R E : Type} (tasks : List (Task T R E)) :
    List (Task T R E × Outcome R E) × Option (List E) :=
  let entries := tasks.map fun t => (t, runTask t)
  let fails := failuresOf (entries.map Prod.snd)
  (entries, if fails.isEmpty then none else some fails)

/-- The outcome-set component of a `RunAll` call. -/
def outcomes {T R E : Type} (tasks : List (Task T R E)) :
    List (Task T R E × Outcome R E) :=
  (RunAll tasks).1

/-- The aggregate-error component of a `RunAll` call. -/
def aggregate {T R E : Type} (tasks : List (Task T R E)) : Option (List E) :=
  (RunAll tasks).2

/-- The number of submitted tasks whose action fails. -/
def numFailures {T R E : Type} (tasks : List (Task T R E)) : Nat :=
  (tasks.filter fun t => (runTask t).isFailure).length

/-- Modelled from the spec: each concurrent unit records its outcome into a
shared outcome slot indexed by task position; the write trace lists the
(slot index, outcome) writes performed during the run, one per unit. -/
def writeTrace {T R E : Type} (tasks : List (Task T R E)) :
    List (Nat × Outcome R E) :=
  tasks.enum.map fun p => (p.1, runTask p.2)

/-- Modelled from the spec: the pre-sized collection of outcome slots, all
initially unwritten. -/
def initialSlots (R E : Type) (n : Nat) : List (Option (Outcome R E)) :=
  List.replicate n none

/-- Replay a write trace into the slots: each write stores its outcome at
its own index. -/
def fillSlots {R E : Type} (slots : List (Option (Outcome R E)))
    (tr : List (Nat × Outcome R E)) : List (Option (Outcome R E)) :=
  tr.foldl (fun s p => s.set p.1 (some p.2)) slots

/-- Modelled from the spec: the slot-level view of a `RunAll` invocation —
pre-size the slots, then replay the single write of every unit. -/
def RunAllSlots {T R E : Type} (tasks : List (Task T R E)) :
    List (Option (Outcome R E)) :=
  fillSlots (initialSlots R E tasks.length) (writeTrace tasks)

/-- Modelled from the spec: wall-clock duration of the fan-out run under a
duration assignment for each task — every task has its own concurrent unit,
so the run completes when the slowest unit does (scheduling overhead
abstracted away). -/
def parallelWallClock (durs : List Nat) : Nat := durs.foldr max 0

/-- Wall-clock duration of running the same tasks one after another, the
serial reference point of the concurrency property of the spec. -/
def serialWallClock (durs : List Nat) : Nat := durs.sum

/-- A concrete task whose action succeeds, used to instantiate theorems. -/
def okTask (name : String) : Task String String String :=
  ⟨name, fun _ => Except.ok "ok"⟩

/-- A concrete task whose action fails with the given message. -/
def failTask (name msg : String) : Task String String String :=
  ⟨name, fun _ => Except.error msg⟩

/-- The concrete scenario of the spec: three targets, the action on B fails
with "exit 1", the actions on A and C succeed. -/
def scenarioTasks : List (Task String String String) :=
  [okTask "A", failTask "B" "exit 1", okTask "C"]

end FanOut

namespace Aerospike

/-- The values of the aerospike_storage_type flag
(aerospike_server.DISK and aerospike_server.MEMORY). -/
inductive StorageType where
  | disk
  | memory
deriving DecidableEq

/-- aerospike_server.DISK. -/
def DISK : StorageType := StorageType.disk

/-- The data_disk_type flag: disk.LOCAL against any other disk type. -/
inductive DiskType where
  | localDisk
  | otherDisk
deriving DecidableEq

/-- disk.LOCAL. -/
def LOCAL : DiskType := DiskType.localDisk

/-- The command-line flag state the module reads (the FLAGS global).  The
machine-type string flags are None by default; a falsy value (None or the
empty string) is modelled as `none`.  The `_present` fields model
`FLAGS[name].present`. -/
structure Flags where
  aerospike_storage_type : StorageType
  data_disk_type : DiskType
  aerospike_server_machine_type : Option String
  aerospike_client_machine_type : Option String
  aerospike_vms_present : Bool
  aerospike_vms : Int
  ycsb_client_vms_present : Bool
  ycsb_client_vms : Int
  aerospike_service_threads : Int
  aerospike_replication_factor : Int
deriving DecidableEq

/-- The workers disk_count config value: YAML null or an integer.  Python
truthiness is false exactly on null and 0. -/
inductive DiskCount where
  | null
  | num (n : Int)
deriving DecidableEq

/-- Python truthiness of a disk_count value. -/
def DiskCount.truthy : DiskCount → Bool
  | .null => false
  | .num n => n != 0

/-- Python `a or b` on disk_count values. -/
def pyOr (a b : DiskCount) : DiskCount := if a.truthy then a else b

/-- The per-group config entries GetConfig touches: the vm_spec mapping
(cloud name to machine type), disk_count and vm_count. -/
structure VMGroupConfig where
  vm_spec : List (String × String)
  disk_count : DiskCount
  vm_count : Option Int
deriving DecidableEq

/-- The loaded benchmark config: the workers and clients vm_groups. -/
structure Config where
  workers : VMGroupConfig
  clients : VMGroupConfig
deriving DecidableEq

/-- Embedded from GetConfig: the aerospike_storage_type == DISK block
adjusting the workers disk_count. -/
def applyStorage (config : Config) (FLAGS : Flags) : Config :=
  if FLAGS.aerospike_storage_type = DISK then
    if FLAGS.data_disk_type = LOCAL then
      { config with workers :=
          { config.workers with
              disk_count := pyOr config.workers.disk_count DiskCount.null } }
    else
      { config with workers :=
          { config.workers with
              disk_count := pyOr config.workers.disk_count (DiskCount.num 1) } }
  else config

/-- Embedded from GetConfig: the aerospike_server_machine_type override of
every cloud entry of the workers vm_spec. -/
def applyServerType (config : Config) (FLAGS : Flags) : Config :=
  match FLAGS.aerospike_server_machine_type with
  | some mt =>
      { config with workers :=
          { config.workers with
              vm_spec := config.workers.vm_spec.map fun p => (p.1, mt) } }
  | none => config

/-- Embedded from GetConfig: the aerospike_client_machine_type override of
every cloud entry of the clients vm_spec. -/
def applyClientType (config : Config) (FLAGS : Flags) : Config :=
  match FLAGS.aerospike_client_machine_type with
  | some mt =>
      { config with clients :=
          { config.clients with
              vm_spec := config.clients.vm_spec.map fun p => (p.1, mt) } }
  | none => config

/-- Embedded from GetConfig: the aerospike_vms flag setting the workers
vm_count when present. -/
def applyAerospikeVms (config : Config) (FLAGS : Flags) : Config :=
  if FLAGS.aerospike_vms_present then
    { config with workers :=
        { config.workers with vm_count := some FLAGS.aerospike_vms } }
  else config

/-- Embedded from GetConfig: the ycsb_client_vms flag setting the clients
vm_count when present. -/
def applyYcsbVms (config : Config) (FLAGS : Flags) : Config :=
  if FLAGS.ycsb_client_vms_present then
    { config with clients :=
        { config.clients with vm_count := some FLAGS.ycsb_client_vms } }
  else config

/-- Embedded from GetConfig in aerospike_ycsb_benchmark.py: the statement
blocks applied in source order to the loaded config (configs.LoadConfig is
an external collaborator, so the loaded config is taken as input). -/
def GetConfig (config : Config) (FLAGS : Flags) : Config :=
  applyYcsbVms
    (applyAerospikeVms
      (applyClientType (applyServerType (applyStorage config FLAGS) FLAGS) FLAGS)
      FLAGS)
    FLAGS

/-- A virtual machine as Prepare and Run read it: its internal IP and its
total memory in kB. -/
structure VM where
  internal_ip : String
  total_memory_kb : Nat
deriving DecidableEq

/-- The vm_groups mapping of a benchmark_spec: the clients (loaders) and
the workers (aerospike VMs). -/
structure VMGroups where
  clients : List VM
  workers : List VM
deriving DecidableEq

/-- The two assertion failures Prepare can raise. -/
inductive PrepareError where
  | noClients
  | noWorkers
deriving DecidableEq

/-- What Prepare builds when both assertions pass: the seed IPs, the
targets of the threaded install actions (aerospike on every worker, ycsb on
every loader), and the YCSBExecutor parameters. -/
structure PrepareResult where
  seed_ips : List String
  aerospike_install_targets : List VM
  ycsb_install_targets : List VM
  executor_host : String
  executor_namespace : String
deriving DecidableEq

/-- Embedded from Prepare in aerospike_ycsb_benchmark.py.  The two `assert`
statements become error returns taken before any install work; the
threaded install and the YCSBExecutor construction are modelled by
recording their targets and parameters. -/
def Prepare (groups : VMGroups) : Except PrepareError PrepareResult :=
  let loaders := groups.clients
  if loaders.isEmpty then Except.error PrepareError.noClients
  else
    match groups.workers with
    | [] => Except.error PrepareError.noWorkers
    | v :: rest =>
        Except.ok
          { seed_ips := (v :: rest).map VM.internal_ip
            aerospike_install_targets := v :: rest
            ycsb_install_targets := loaders
            executor_host := v.internal_ip
            executor_namespace := "test" }

/-- A metadata value: an integer or the storage-type flag value. -/
inductive MetaValue where
  | int (n : Int)
  | storage (t : StorageType)
deriving DecidableEq

/-- Python dict assignment d[k] = v on a metadata dictionary, modelled as a
key-to-value association list with each key bound at most once: override
the existing binding or append a new one. -/
def dictInsert (d : List (String × MetaValue)) (k : String) (v : MetaValue) :
    List (String × MetaValue) :=
  if d.any fun p => p.1 == k then
    d.map fun p => if p.1 == k then (k, v) else p
  else d ++ [(k, v)]

/-- Python dict.update(kvs): insert every binding of kvs in order. -/
def dictUpdate (d kvs : List (String × MetaValue)) :
    List (String × MetaValue) :=
  kvs.foldl (fun acc p => dictInsert acc p.1 p.2) d

/-- Python dict lookup d.get(k). -/
def dictGet (d : List (String × MetaValue)) (k : String) : Option MetaValue :=
  (d.find? fun p => p.1 == k).map Prod.snd

/-- A sample.Sample as Run touches it: the measurement fields and the
metadata dictionary. -/
structure Sample where
  metric : String
  value : Int
  unit : String
  metadata : List (String × MetaValue)
deriving DecidableEq

/-- The benchmark_spec fields Run reads: the vm_groups, and the executor
set up by Prepare, whose LoadAndRun behaviour is an external collaborator
modelled as a function from the loader VMs to the produced samples. -/
structure BenchmarkSpec where
  vm_groups : VMGroups
  executorLoadAndRun : List VM → List Sample

/-- The error Run raises on an empty workers group: aerospike_vms[0] is an
out-of-range index. -/
inductive RunError where
  | indexError
deriving DecidableEq

/-- Python int(kb * 0.8): the float product truncated to an integer,
modelled as the rational floor (which the double-precision product
truncates to at machine-memory magnitudes). -/
def pyIntMul08 (kb : Nat) : Nat := kb * 8 / 10

/-- The metadata dictionary literal Run builds, in source field order. -/
def runMetadata (FLAGS : Flags) (aerospike_vms : List VM) (firstVM : VM) :
    List (String × MetaValue) :=
  [("ycsb_client_vms", MetaValue.int FLAGS.ycsb_client_vms),
   ("num_vms", MetaValue.int (Int.ofNat aerospike_vms.length)),
   ("Storage Type", MetaValue.storage FLAGS.aerospike_storage_type),
   ("memory_size",
     MetaValue.int (Int.ofNat (pyIntMul08 firstVM.total_memory_kb))),
   ("service_threads", MetaValue.int FLAGS.aerospike_service_threads),
   ("replication_factor", MetaValue.int FLAGS.aerospike_replication_factor)]

/-- The keys of the metadata dictionary Run builds. -/
def runMetadataKeys : List String :=
  ["ycsb_client_vms", "num_vms", "Storage Type", "memory_size",
   "service_threads", "replication_factor"]

/-- Embedded from Run in aerospike_ycsb_benchmark.py: indexing
aerospike_vms[0] raises IndexError when the workers group is empty;
otherwise every sample of LoadAndRun gets the metadata dictionary applied
through dict.update. -/
def Run (spec : BenchmarkSpec) (FLAGS : Flags) :
    Except RunError (List Sample) :=
  let loaders := spec.vm_groups.clients
  match spec.vm_groups.workers with
  | [] => Except.error RunError.indexError
  | v :: rest =>
      let metadata := runMetadata FLAGS (v :: rest) v
      Except.ok ((spec.executorLoadAndRun loaders).map fun s =>
        { s with metadata := dictUpdate s.metadata metadata })

/-- A concrete client VM used to instantiate theorems. -/
def vm1 : VM := ⟨"10.0.0.1", 3800000⟩

/-- A concrete worker VM used to instantiate theorems. -/
def vm2 : VM := ⟨"10.0.0.2", 7600000⟩

/-- Concrete vm_groups with one client and one worker. -/
def sampleGroups : VMGroups := ⟨[vm1], [vm2]⟩

/-- Concrete flag state: disk storage on local data disks. -/
def sampleFlags : Flags :=
  ⟨StorageType.disk, DiskType.localDisk, none, none, false, 0, true, 2, 4, 1⟩

/-- The loaded-config defaults of BENCHMARK_CONFIG: the workers group
carries disk_count 0 and a null vm_count. -/
def sampleConfig : Config :=
  ⟨⟨[("GCP", "n1-standard-1")], DiskCount.num 0, none⟩,
   ⟨[("GCP", "n1-standard-2")], DiskCount.null, none⟩⟩

/-- A concrete sample whose metadata holds one key Run overrides and one
foreign key. -/
def sampleBase : Sample :=
  ⟨"ops", 100, "ops/sec",
   [("num_vms", MetaValue.int 99), ("workload", MetaValue.int 7)]⟩

/-- A concrete benchmark_spec whose executor produces one sample. -/
def sampleSpec : BenchmarkSpec :=
  ⟨sampleGroups, fun _ => [sampleBase]⟩

/-- A concrete benchmark_spec with an empty workers group. -/
def emptyWorkersSpec : BenchmarkSpec :=
  ⟨⟨[vm1], []⟩, fun _ => [sampleBase]⟩

end Aerospike

namespace FanOut

theorem outcomes_eq {T R E : Type} (tasks : List (Task T R E)) :
    outcomes tasks = tasks.map fun t => (t, runTask t) := rfl

theorem length_outcomes {T R E : Type} (tasks : List (Task T R E)) :
    (outcomes tasks).length = tasks.length := by
  simp [outcomes_eq]

theorem length_failuresOf_map {T R E : Type} (tasks : List (Task T R E)) :
    (failuresOf (tasks.map runTask)).length = numFailures tasks := by
  induction tasks with
  | nil => rfl
  | cons t ts ih =>
      simp only [failuresOf, numFailures, List.map_cons, List.filterMap_cons,
        List.filter_cons] at *
      cases h : runTask t with
      | success r => simpa [h, Outcome.isFailure] using ih
      | failure e => simpa [h, Outcome.isFailure] using ih
      | cancelled => simpa [h, Outcome.isFailure] using ih

theorem aggregate_eq {T R E : Type} (tasks : List (Task T R E)) :
    aggregate tasks =
      if (failuresOf (tasks.map runTask)).isEmpty then none
      else some (failuresOf (tasks.map runTask)) := by
  simp only [aggregate, RunAll, List.map_map]
  have h : (Prod.snd ∘ fun t : Task T R E => (t, runTask t)) = runTask := rfl
  rw [h]

theorem set_append_length {α : Type} (pre : List α) (a b : α) (rest : List α) :
    (pre ++ a :: rest).set pre.length b = pre ++ b :: rest := by
  induction pre with
  | nil => rfl
  | cons x xs ih => simp [List.set, ih]

theorem enumFrom_map {α β : Type} (f : α → β) (l : List α) (n : Nat) :
    (l.map f).enumFrom n = (l.enumFrom n).map fun p => (p.1, f p.2) := by
  induction l generalizing n with
  | nil => rfl
  | cons x xs ih => simp [List.enumFrom, ih]

theorem fillSlots_enumFrom {R E : Type} (outs : List (Outcome R E))
    (pre : List (Option (Outcome R E))) :
    fillSlots (pre ++ List.replicate outs.length none)
      (outs.enumFrom pre.length) = pre ++ outs.map some := by
  induction outs generalizing pre with
  | nil => simp [fillSlots]
  | cons o os ih =>
      have hset : (pre ++ (none : Option (Outcome R E)) ::
          List.replicate os.length none).set pre.length (some o) =
          (pre ++ [some o]) ++ List.replicate os.length none := by
        rw [set_append_length]
        simp
      have hlen : pre.length + 1 = (pre ++ [some o]).length := by simp
      calc fillSlots (pre ++ List.replicate (o :: os).length none)
            ((o :: os).enumFrom pre.length)
          = fillSlots ((pre ++ [some o]) ++ List.replicate os.length none)
              (os.enumFrom (pre ++ [some o]).length) := by
            simp only [List.replicate, List.enumFrom, fillSlots, List.foldl_cons]
            rw [hset, hlen]
        _ = (pre ++ [some o]) ++ os.map some := ih (pre ++ [some o])
        _ = pre ++ (o :: os).map some := by simp

theorem writeTrace_eq_enum {T R E : Type} (tasks : List (Task T R E)) :
    writeTrace tasks = (tasks.map runTask).enum := by
  simp only [writeTrace, List.enum, enumFrom_map]

theorem RunAllSlots_eq {T R E : Type} (tasks : List (Task T R E)) :
    RunAllSlots tasks = (tasks.map runTask).map some := by
  have h := fillSlots_enumFrom (tasks.map runTask)
    ([] : List (Option (Outcome R E)))
  simpa [RunAllSlots, initialSlots, writeTrace_eq_enum, List.enum] using h

theorem writeTrace_indices {T R E : Type} (tasks : List (Task T R E)) :
    (writeTrace tasks).map Prod.fst = List.range tasks.length := by
  rw [writeTrace_eq_enum]
  simp [List.enum_map_fst]

theorem parallelWallClock_const {durs : List Nat} {D : Nat}
    (hne : durs ≠ []) (hD : ∀ d ∈ durs, d = D) :
    parallelWallClock durs = D := by
  induction durs with
  | nil => exact absurd rfl hne
  | cons d ds ih =>
      have hd : d = D := hD d (by simp)
      cases ds with
      | nil => simp [parallelWallClock, hd]
      | cons e es =>
          have hrec : parallelWallClock (e :: es) = D := by
            refine ih (by simp) ?_
            intro x hx
            exact hD x (List.mem_cons_of_mem _ hx)
          simp only [parallelWallClock, List.foldr_cons] at hrec ⊢
          rw [hrec, hd]
          exact Nat.max_self D

theorem serialWallClock_const {durs : List Nat} {D : Nat}
    (hD : ∀ d ∈ durs, d = D) :
    serialWallClock durs = durs.length * D := by
  induction durs with
  | nil => simp [serialWallClock]
  | cons d ds ih =>
      have hd : d = D := hD d (by simp)
      have hrec := ih fun x hx => hD x (List.mem_cons_of_mem _ hx)
      simp only [serialWallClock, List.sum_cons, List.length_cons] at hrec ⊢
      rw [hrec, hd, Nat.succ_mul, Nat.add_comm]

theorem failuresOf_nil_of_no_failure {R E : Type} (outs : List (Outcome R E))
    (h : ∀ o ∈ outs, o.isFailure = false) : failuresOf outs = [] := by
  induction outs with
  | nil => rfl
  | cons o os ih =>
      have ho := h o (by simp)
      have hrec := ih fun x hx => h x (List.mem_cons_of_mem _ hx)
      cases o with
      | success r => simpa [failuresOf] using hrec
      | failure e => simp [Outcome.isFailure] at ho
      | cancelled => simpa [failuresOf] using hrec

end FanOut

namespace Aerospike

theorem applyServerType_disk_count (c : Config) (F : Flags) :
    (applyServerType c F).workers.disk_count = c.workers.disk_count := by
  cases h : F.aerospike_server_machine_type <;> simp [applyServerType, h]

theorem applyClientType_workers (c : Config) (F : Flags) :
    (applyClientType c F).workers = c.workers := by
  cases h : F.aerospike_client_machine_type <;> simp [applyClientType, h]

theorem applyAerospikeVms_disk_count (c : Config) (F : Flags) :
    (applyAerospikeVms c F).workers.disk_count = c.workers.disk_count := by
  cases h : F.aerospike_vms_present <;> simp [applyAerospikeVms, h]

theorem applyYcsbVms_workers (c : Config) (F : Flags) :
    (applyYcsbVms c F).workers = c.workers := by
  cases h : F.ycsb_client_vms_present <;> simp [applyYcsbVms, h]

theorem getConfig_disk_count_eq (c : Config) (F : Flags) :
    (GetConfig c F).workers.disk_count
      = (applyStorage c F).workers.disk_count := by
  simp only [GetConfig, applyYcsbVms_workers, applyAerospikeVms_disk_count,
    applyClientType_workers, applyServerType_disk_count]

theorem find?_cons_true {α : Type} (p : α → Bool) (a : α) (l : List α)
    (h : p a = true) : (a :: l).find? p = some a :=
  List.find?_cons_of_pos l h

theorem find?_cons_false {α : Type} (p : α → Bool) (a : α) (l : List α)
    (h : p a = false) : (a :: l).find? p = l.find? p :=
  List.find?_cons_of_neg l (by simp [h])

theorem find?_keyMap_ne (d : List (String × MetaValue)) (k q : String)
    (v : MetaValue) (h : q ≠ k) :
    ((d.map fun p => if p.1 == k then (k, v) else p).find?
        fun p => p.1 == q)
      = d.find? fun p => p.1 == q := by
  induction d with
  | nil => rfl
  | cons p d ih =>
      simp only [List.map_cons]
      by_cases hp : p.1 = k
      · have h1 : (p.1 == k) = true := by simp [hp]
        have h2 : (((k, v) : String × MetaValue).1 == q) = false := by
          simp
          exact Ne.symm h
        have h3 : (p.1 == q) = false := by
          simp [hp]
          exact Ne.symm h
        rw [if_pos h1, find?_cons_false (fun r : String × MetaValue => r.1 == q) _ _ h2,
          find?_cons_false (fun r : String × MetaValue => r.1 == q) _ _ h3, ih]
      · have h1 : (p.1 == k) = false := by simp [hp]
        rw [if_neg (by simp [h1])]
        cases hq : (p.1 == q) with
        | true =>
            rw [find?_cons_true (fun r : String × MetaValue => r.1 == q) _ _ hq,
              find?_cons_true (fun r : String × MetaValue => r.1 == q) _ _ hq]
        | false =>
            rw [find?_cons_false (fun r : String × MetaValue => r.1 == q) _ _ hq,
              find?_cons_false (fun r : String × MetaValue => r.1 == q) _ _ hq, ih]

theorem find?_append_single_ne (d : List (String × MetaValue)) (k q : String)
    (v : MetaValue) (h : q ≠ k) :
    ((d ++ [(k, v)]).find? fun p => p.1 == q)
      = d.find? fun p => p.1 == q := by
  induction d with
  | nil =>
      have h2 : (((k, v) : String × MetaValue).1 == q) = false := by
        simp
        exact Ne.symm h
      simp only [List.nil_append]
      rw [find?_cons_false (fun r : String × MetaValue => r.1 == q) _ _ h2]
  | cons p d ih =>
      simp only [List.cons_append]
      cases hq : (p.1 == q) with
      | true =>
          rw [find?_cons_true (fun r : String × MetaValue => r.1 == q) _ _ hq,
            find?_cons_true (fun r : String × MetaValue => r.1 == q) _ _ hq]
      | false =>
          rw [find?_cons_false (fun r : String × MetaValue => r.1 == q) _ _ hq,
            find?_cons_false (fun r : String × MetaValue => r.1 == q) _ _ hq, ih]

theorem dictGet_insert_ne (d : List (String × MetaValue)) (k : String)
    (v : MetaValue) (q : String) (h : q ≠ k) :
    dictGet (dictInsert d k v) q = dictGet d q := by
  by_cases ha : (d.any fun p => p.1 == k) = true
  · simp only [dictGet, dictInsert, if_pos ha]
    rw [find?_keyMap_ne d k q v h]
  · simp only [dictGet, dictInsert, if_neg ha]
    rw [find?_append_single_ne d k q v h]

theorem find?_keyMap_self (d : List (String × MetaValue)) (k : String)
    (v : MetaValue) (h : (d.any fun p => p.1 == k) = true) :
    ((d.map fun p => if p.1 == k then (k, v) else p).find?
        fun p => p.1 == k)
      = some (k, v) := by
  induction d with
  | nil => simp at h
  | cons p d ih =>
      simp only [List.map_cons]
      by_cases hp : p.1 = k
      · have h1 : (p.1 == k) = true := by simp [hp]
        rw [if_pos h1]
        exact find?_cons_true _ _ _ (by simp)
      · have h1 : (p.1 == k) = false := by simp [hp]
        rw [if_neg (by simp [h1])]
        rw [find?_cons_false (fun r : String × MetaValue => r.1 == k) _ _ h1]
        refine ih ?_
        simp only [List.any_cons, h1, Bool.false_or] at h
        exact h

theorem find?_append_single_self (d : List (String × MetaValue)) (k : String)
    (v : MetaValue) (h : (d.find? fun p => p.1 == k) = none) :
    ((d ++ [(k, v)]).find? fun p => p.1 == k) = some (k, v) := by
  induction d with
  | nil =>
      simp only [List.nil_append]
      exact find?_cons_true _ _ _ (by simp)
  | cons p d ih =>
      simp only [List.cons_append]
      cases hq : (p.1 == k) with
      | true =>
          rw [find?_cons_true (fun r : String × MetaValue => r.1 == k) _ _ hq] at h
          exact absurd h (by simp)
      | false =>
          rw [find?_cons_false (fun r : String × MetaValue => r.1 == k) _ _ hq] at h
          rw [find?_cons_false (fun r : String × MetaValue => r.1 == k) _ _ hq]
          exact ih h

theorem dictGet_insert_self (d : List (String × MetaValue)) (k : String)
    (v : MetaValue) :
    dictGet (dictInsert d k v) k = some v := by
  by_cases ha : (d.any fun p => p.1 == k) = true
  · simp only [dictGet, dictInsert, if_pos ha]
    rw [find?_keyMap_self d k v ha]
    rfl
  · simp only [dictGet, dictInsert, if_neg ha]
    have hnone : (d.find? fun p => p.1 == k) = none := by
      rw [List.find?_eq_none]
      intro p hp hbeq
      exact ha (List.any_eq_true.mpr ⟨p, hp, hbeq⟩)
    rw [find?_append_single_self d k v hnone]
    rfl

theorem dictGet_update_not_mem (kvs d : List (String × MetaValue))
    (q : String) (h : ∀ p ∈ kvs, p.1 ≠ q) :
    dictGet (dictUpdate d kvs) q = dictGet d q := by
  induction kvs generalizing d with
  | nil => rfl
  | cons p kvs ih =>
      have hstep : dictUpdate d (p :: kvs)
          = dictUpdate (dictInsert d p.1 p.2) kvs := rfl
      rw [hstep, ih _ fun x hx => h x (List.mem_cons_of_mem _ hx),
        dictGet_insert_ne _ _ _ _ (Ne.symm (h p (by simp)))]

theorem runMetadata_keys (F : Flags) (vms : List VM) (v : VM) :
    (runMetadata F vms v).map Prod.fst = runMetadataKeys := rfl

theorem dictGet_update_runMetadata (d : List (String × MetaValue))
    (F : Flags) (vms : List VM) (v : VM) :
    dictGet (dictUpdate d (runMetadata F vms v)) "ycsb_client_vms"
        = some (MetaValue.int F.ycsb_client_vms) ∧
    dictGet (dictUpdate d (runMetadata F vms v)) "num_vms"
        = some (MetaValue.int (Int.ofNat vms.length)) ∧
    dictGet (dictUpdate d (runMetadata F vms v)) "Storage Type"
        = some (MetaValue.storage F.aerospike_storage_type) ∧
    dictGet (dictUpdate d (runMetadata F vms v)) "memory_size"
        = some (MetaValue.int (Int.ofNat (pyIntMul08 v.total_memory_kb))) ∧
    dictGet (dictUpdate d (runMetadata F vms v)) "service_threads"
        = some (MetaValue.int F.aerospike_service_threads) ∧
    dictGet (dictUpdate d (runMetadata F vms v)) "replication_factor"
        = some (MetaValue.int F.aerospike_replication_factor) := by
  have hu : dictUpdate d (runMetadata F vms v)
      = dictInsert (dictInsert (dictInsert (dictInsert (dictInsert (dictInsert d
          "ycsb_client_vms" (MetaValue.int F.ycsb_client_vms))
          "num_vms" (MetaValue.int (Int.ofNat vms.length)))
          "Storage Type" (MetaValue.storage F.aerospike_storage_type))
          "memory_size" (MetaValue.int (Int.ofNat (pyIntMul08 v.total_memory_kb))))
          "service_threads" (MetaValue.int F.aerospike_service_threads))
          "replication_factor" (MetaValue.int F.aerospike_replication_factor) := rfl
  rw [hu]
  refine ⟨?_, ?_, ?_, ?_, ?_, ?_⟩
  · rw [dictGet_insert_ne _ _ _ _ (by decide), dictGet_insert_ne _ _ _ _ (by decide),
      dictGet_insert_ne _ _ _ _ (by decide), dictGet_insert_ne _ _ _ _ (by decide),
      dictGet_insert_ne _ _ _ _ (by decide), dictGet_insert_self]
  · rw [dictGet_insert_ne _ _ _ _ (by decide), dictGet_insert_ne _ _ _ _ (by decide),
      dictGet_insert_ne _ _ _ _ (by decide), dictGet_insert_ne _ _ _ _ (by decide),
      dictGet_insert_self]
  · rw [dictGet_insert_ne _ _ _ _ (by decide), dictGet_insert_ne _ _ _ _ (by decide),
      dictGet_insert_ne _ _ _ _ (by decide), dictGet_insert_self]
  · rw [dictGet_insert_ne _ _ _ _ (by decide), dictGet_insert_ne _ _ _ _ (by decide),
      dictGet_insert_self]
  · rw [dictGet_insert_ne _ _ _ _ (by decide), dictGet_insert_self]
  · rw [dictGet_insert_self]

end Aerospike

namespace FanOut

/-- C1 (amended): for a non-empty task sequence, the outcome set has one
entry per task in submission order, every task runs to completion even
when another task fails, the failure list collects exactly the failing
tasks and drops none, and RunAll fails with the aggregate of all failures
when at least one task fails; with zero failures RunAll reports no
aggregate error (where the claim, as frozen, also demanded one). -/
theorem C1_runAll_aggregate {T R E : Type} (tasks : List (Task T R E))
    (hN : 1 ≤ tasks.length) :
    (outcomes tasks).length = tasks.length ∧
    (∀ i t, tasks.get? i = some t →
      (outcomes tasks).get? i = some (t, runTask t)) ∧
    (failuresOf (tasks.map runTask)).length = numFailures tasks ∧
    (∀ e, Outcome.failure e ∈ tasks.map runTask →
      e ∈ failuresOf (tasks.map runTask)) ∧
    (1 ≤ numFailures tasks →
      aggregate tasks = some (failuresOf (tasks.map runTask))) ∧
    (numFailures tasks = 0 → aggregate tasks = none) := by
  refine ⟨length_outcomes tasks, ?_, length_failuresOf_map tasks, ?_, ?_, ?_⟩
  · intro i t ht
    rw [outcomes_eq, List.get?_map, ht]
    rfl
  · intro e he
    simp only [failuresOf, List.mem_filterMap]
    exact ⟨Outcome.failure e, he, rfl⟩
  · intro hk
    rw [aggregate_eq]
    cases hf : failuresOf (tasks.map runTask) with
    | nil =>
        have hlen := length_failuresOf_map tasks
        rw [hf] at hlen
        simp only [List.length_nil] at hlen
        omega
    | cons a l => simp [List.isEmpty]
  · intro h0
    rw [aggregate_eq]
    cases hf : failuresOf (tasks.map runTask) with
    | nil => simp [List.isEmpty]
    | cons a l =>
        have hlen := length_failuresOf_map tasks
        rw [hf] at hlen
        simp only [List.length_cons] at hlen
        omega

/-- C1 witness: the concrete three-target scenario — A and C succeed, B
fails with "exit 1" — instantiating the amended claim. -/
theorem C1_scenario_witness :
    1 ≤ scenarioTasks.length ∧
    (outcomes scenarioTasks).length = 3 ∧
    aggregate scenarioTasks = some ["exit 1"] := by
  have h := C1_runAll_aggregate scenarioTasks (by decide)
  refine ⟨by decide, h.1.trans (by decide), ?_⟩
  have hagg := h.2.2.2.2.1 (by decide)
  exact hagg.trans (by decide)

/-- C1 counterexample: one submitted task with zero failures — the claim,
which quantifies over 0 ≤ k ≤ N, then demands an aggregate error
referencing zero failures, but RunAll reports no error at all. -/
theorem C1_zero_failures_counterexample :
    numFailures [okTask "A"] = 0 ∧
    aggregate [okTask "A"] = none ∧
    ¬ ∃ l : List String, aggregate [okTask "A"] = some l := by
  refine ⟨by decide, by decide, ?_⟩
  rintro ⟨l, hl⟩
  rw [(by decide : aggregate [okTask "A"] = (none : Option (List String)))] at hl
  exact Option.noConfusion hl

/-- C2: when every action succeeds, the outcome set has exactly one entry
per submitted task and there is no aggregate error. -/
theorem C2_all_success {T R E : Type} (tasks : List (Task T R E))
    (h : ∀ t ∈ tasks, ∃ r, t.action t.target = Except.ok r) :
    (outcomes tasks).length = tasks.length ∧ aggregate tasks = none := by
  refine ⟨length_outcomes tasks, ?_⟩
  have hnf : ∀ o ∈ tasks.map runTask, o.isFailure = false := by
    intro o ho
    rcases List.mem_map.mp ho with ⟨t, ht, rfl⟩
    rcases h t ht with ⟨r, hr⟩
    simp [runTask, hr, Outcome.isFailure]
  rw [aggregate_eq, failuresOf_nil_of_no_failure _ hnf]
  rfl

/-- C2 witness: two succeeding tasks yield two outcomes and no error. -/
theorem C2_success_witness :
    (∀ t ∈ [okTask "A", okTask "B"], ∃ r, t.action t.target = Except.ok r) ∧
    ((outcomes [okTask "A", okTask "B"]).length
        = [okTask "A", okTask "B"].length ∧
      aggregate [okTask "A", okTask "B"] = none) := by
  have hyp : ∀ t ∈ [okTask "A", okTask "B"],
      ∃ r, t.action t.target = Except.ok r := by
    intro t ht
    rcases List.mem_cons.mp ht with rfl | ht2
    · exact ⟨"ok", rfl⟩
    · rcases List.mem_cons.mp ht2 with rfl | ht3
      · exact ⟨"ok", rfl⟩
      · exact absurd ht3 (List.not_mem_nil t)
  exact ⟨hyp, C2_all_success _ hyp⟩

/-- C3: RunAll on the empty task sequence is a no-op — empty outcome set,
no error — and the modelled wall-clock time of the run is zero whatever
duration any action would have had. -/
theorem C3_empty_noop (T R E : Type) :
    RunAll ([] : List (Task T R E)) = ([], none) ∧
    ∀ D : Nat,
      parallelWallClock
        (List.replicate ([] : List (Task T R E)).length D) = 0 :=
  ⟨rfl, fun _ => rfl⟩

/-- C4: the outcome set pairs each result-or-error with its originating
task: the i-th outcome is exactly the i-th submitted task together with
the result of running that task, in submission order. -/
theorem C4_outcome_association {T R E : Type} (tasks : List (Task T R E))
    (i : Nat) (t : Task T R E) (h : tasks.get? i = some t) :
    (outcomes tasks).get? i = some (t, runTask t) ∧
    (outcomes tasks).length = tasks.length := by
  refine ⟨?_, length_outcomes tasks⟩
  rw [outcomes_eq, List.get?_map, h]
  rfl

/-- C4 witness: the second of two concrete tasks maps to the second
outcome, carrying its own failure. -/
theorem C4_association_witness :
    ([okTask "X", failTask "Y" "boom"].get? 1 = some (failTask "Y" "boom")) ∧
    ((outcomes [okTask "X", failTask "Y" "boom"]).get? 1
        = some (failTask "Y" "boom", Outcome.failure "boom") ∧
      (outcomes [okTask "X", failTask "Y" "boom"]).length = 2) := by
  have h : [okTask "X", failTask "Y" "boom"].get? 1
      = some (failTask "Y" "boom") := rfl
  have h2 := C4_outcome_association [okTask "X", failTask "Y" "boom"] 1
    (failTask "Y" "boom") h
  exact ⟨h, h2.1, h2.2⟩

/-- C9: the slots are pre-sized to the number of tasks, the write trace
writes each slot index at most once (exactly the indices below N, its own
index per task), and replaying the writes yields exactly the outcome set —
the only shared mutable state of an invocation. -/
theorem C9_outcome_slots {T R E : Type} (tasks : List (Task T R E)) :
    (initialSlots R E tasks.length).length = tasks.length ∧
    (writeTrace tasks).map Prod.fst = List.range tasks.length ∧
    (∀ i, ((writeTrace tasks).map Prod.fst).count i ≤ 1) ∧
    RunAllSlots tasks = (outcomes tasks).map fun p => some p.2 := by
  refine ⟨List.length_replicate _ _, writeTrace_indices tasks, ?_, ?_⟩
  · intro i
    rw [writeTrace_indices tasks]
    exact List.nodup_iff_count_le_one.mp (List.nodup_range _) i
  · rw [RunAllSlots_eq, outcomes_eq]
    simp only [List.map_map]
    rfl

/-- C10: with one concurrent unit per task, N tasks whose actions all take
duration D complete in wall-clock time D (parallel), while running them
one after another takes N times D (serial). -/
theorem C10_parallel_time {T R E : Type} (tasks : List (Task T R E))
    (dur : Task T R E → Nat) (D : Nat) (hne : tasks ≠ [])
    (hD : ∀ t ∈ tasks, dur t = D) :
    parallelWallClock (tasks.map dur) = D ∧
    serialWallClock (tasks.map dur) = tasks.length * D := by
  have hmem : ∀ d ∈ tasks.map dur, d = D := by
    intro d hd
    rcases List.mem_map.mp hd with ⟨t, ht, rfl⟩
    exact hD t ht
  have hmapne : tasks.map dur ≠ [] := by
    intro h0
    exact hne (List.map_eq_nil.mp h0)
  refine ⟨parallelWallClock_const hmapne hmem, ?_⟩
  rw [serialWallClock_const hmem, List.length_map]

/-- C10 witness: three tasks of duration five run in wall-clock time five
in parallel and fifteen serially. -/
theorem C10_parallel_witness :
    ([okTask "A", okTask "B", okTask "C"]
        ≠ ([] : List (Task String String String))) ∧
    parallelWallClock
      ([okTask "A", okTask "B", okTask "C"].map fun _ => 5) = 5 ∧
    serialWallClock
      ([okTask "A", okTask "B", okTask "C"].map fun _ => 5) = 3 * 5 := by
  have hne : [okTask "A", okTask "B", okTask "C"]
      ≠ ([] : List (Task String String String)) :=
    List.cons_ne_nil _ _
  have h := C10_parallel_time [okTask "A", okTask "B", okTask "C"]
    (fun _ => 5) 5 hne (fun t ht => rfl)
  exact ⟨hne, h.1, h.2⟩

end FanOut

namespace Aerospike

/-- C5: Prepare fails its first assertion when the clients group is empty,
its second when the workers group is empty, and with both groups non-empty
neither assertion fires and Prepare reaches the install step, whose
actions target every worker and every loader. -/
theorem C5_prepare_asserts (groups : VMGroups) :
    (groups.clients = [] →
      Prepare groups = Except.error PrepareError.noClients) ∧
    (groups.clients ≠ [] → groups.workers = [] →
      Prepare groups = Except.error PrepareError.noWorkers) ∧
    (groups.clients ≠ [] → groups.workers ≠ [] →
      ∃ r, Prepare groups = Except.ok r ∧
        r.aerospike_install_targets = groups.workers ∧
        r.ycsb_install_targets = groups.clients ∧
        r.seed_ips = groups.workers.map VM.internal_ip) := by
  cases hcl : groups.clients with
  | nil =>
      exact ⟨fun _ => by simp [Prepare, hcl], fun hc _ => absurd rfl hc,
        fun hc _ => absurd rfl hc⟩
  | cons c cs =>
      cases hwk : groups.workers with
      | nil =>
          exact ⟨fun hc => absurd hc (List.cons_ne_nil c cs),
            fun _ _ => by simp [Prepare, hcl, hwk],
            fun _ hw => absurd rfl hw⟩
      | cons v rest =>
          refine ⟨fun hc => absurd hc (List.cons_ne_nil c cs),
            fun _ hw => absurd hw (List.cons_ne_nil v rest),
            fun _ _ => ?_⟩
          exact ⟨⟨(v :: rest).map VM.internal_ip, v :: rest, c :: cs,
            v.internal_ip, "test"⟩, by simp [Prepare, hcl, hwk], rfl, rfl, rfl⟩

/-- C5 witness: one client and one worker pass both assertions and reach
the install step. -/
theorem C5_prepare_witness :
    sampleGroups.clients ≠ [] ∧ sampleGroups.workers ≠ [] ∧
    ∃ r, Prepare sampleGroups = Except.ok r ∧
      r.aerospike_install_targets = sampleGroups.workers ∧
      r.ycsb_install_targets = sampleGroups.clients ∧
      r.seed_ips = sampleGroups.workers.map VM.internal_ip := by
  have h := (C5_prepare_asserts sampleGroups).2.2 (by decide) (by decide)
  exact ⟨by decide, by decide, h⟩

/-- C6: with disk storage, GetConfig keeps a truthy workers disk_count
unchanged, replaces a falsy one (0 or null) by null on local data disks
and by 1 otherwise; without disk storage the workers disk_count of the
loaded config is returned unchanged. -/
theorem C6_disk_count (config : Config) (FLAGS : Flags) :
    (FLAGS.aerospike_storage_type = DISK →
      config.workers.disk_count.truthy = true →
      (GetConfig config FLAGS).workers.disk_count
        = config.workers.disk_count) ∧
    (FLAGS.aerospike_storage_type = DISK →
      config.workers.disk_count.truthy = false →
      FLAGS.data_disk_type = LOCAL →
      (GetConfig config FLAGS).workers.disk_count = DiskCount.null) ∧
    (FLAGS.aerospike_storage_type = DISK →
      config.workers.disk_count.truthy = false →
      FLAGS.data_disk_type ≠ LOCAL →
      (GetConfig config FLAGS).workers.disk_count = DiskCount.num 1) ∧
    (FLAGS.aerospike_storage_type ≠ DISK →
      (GetConfig config FLAGS).workers.disk_count
        = config.workers.disk_count) := by
  rw [getConfig_disk_count_eq]
  refine ⟨?_, ?_, ?_, ?_⟩
  · intro hst htr
    by_cases hd : FLAGS.data_disk_type = LOCAL
    · simp [applyStorage, hst, hd, pyOr, htr]
    · simp [applyStorage, hst, hd, pyOr, htr]
  · intro hst htr hd
    simp [applyStorage, hst, hd, pyOr, htr]
  · intro hst htr hd
    simp [applyStorage, hst, hd, pyOr, htr]
  · intro hst
    simp [applyStorage, hst]

/-- C6 witness: the falsy BENCHMARK_CONFIG default disk_count 0 with disk
storage on local data disks becomes null. -/
theorem C6_disk_count_witness :
    sampleFlags.aerospike_storage_type = DISK ∧
    sampleConfig.workers.disk_count.truthy = false ∧
    sampleFlags.data_disk_type = LOCAL ∧
    (GetConfig sampleConfig sampleFlags).workers.disk_count
      = DiskCount.null := by
  refine ⟨by decide, by decide, by decide, ?_⟩
  exact (C6_disk_count sampleConfig sampleFlags).2.1
    (by decide) (by decide) (by decide)

/-- C7 (amended): when the workers group is non-empty, Run returns exactly
the LoadAndRun samples, in order, with the six metadata keys set to the
documented values and every other metadata key preserved; with an empty
workers group Run instead raises IndexError (see the counterexample). -/
theorem C7_run_metadata (spec : BenchmarkSpec) (FLAGS : Flags)
    (h : spec.vm_groups.workers ≠ []) :
    ∃ samples, Run spec FLAGS = Except.ok samples ∧
      samples.length
        = (spec.executorLoadAndRun spec.vm_groups.clients).length ∧
      ∀ i s,
        (spec.executorLoadAndRun spec.vm_groups.clients).get? i = some s →
        ∃ s2, samples.get? i = some s2 ∧
          s2.metric = s.metric ∧ s2.value = s.value ∧ s2.unit = s.unit ∧
          dictGet s2.metadata "ycsb_client_vms"
            = some (MetaValue.int FLAGS.ycsb_client_vms) ∧
          dictGet s2.metadata "num_vms"
            = some (MetaValue.int (Int.ofNat spec.vm_groups.workers.length)) ∧
          dictGet s2.metadata "Storage Type"
            = some (MetaValue.storage FLAGS.aerospike_storage_type) ∧
          (∀ v0, spec.vm_groups.workers.head? = some v0 →
            dictGet s2.metadata "memory_size"
              = some (MetaValue.int
                  (Int.ofNat (pyIntMul08 v0.total_memory_kb)))) ∧
          dictGet s2.metadata "service_threads"
            = some (MetaValue.int FLAGS.aerospike_service_threads) ∧
          dictGet s2.metadata "replication_factor"
            = some (MetaValue.int FLAGS.aerospike_replication_factor) ∧
          ∀ k, k ∉ runMetadataKeys →
            dictGet s2.metadata k = dictGet s.metadata k := by
  rcases List.exists_cons_of_ne_nil h with ⟨v, rest, hw⟩
  refine ⟨(spec.executorLoadAndRun spec.vm_groups.clients).map fun s =>
      { s with metadata :=
          dictUpdate s.metadata (runMetadata FLAGS (v :: rest) v) },
    ?_, by simp, ?_⟩
  · simp [Run, hw]
  · intro i s hs
    refine ⟨{ s with metadata := dictUpdate s.metadata (runMetadata FLAGS (v :: rest) v) },
      by rw [List.get?_map, hs]; rfl, rfl, rfl, rfl, ?_⟩
    have h6 := dictGet_update_runMetadata s.metadata FLAGS (v :: rest) v
    rw [hw]
    refine ⟨h6.1, h6.2.1, h6.2.2.1, ?_, h6.2.2.2.2.1, h6.2.2.2.2.2, ?_⟩
    · intro v0 hv0
      simp only [List.head?_cons, Option.some.injEq] at hv0
      rw [← hv0]
      exact h6.2.2.2.1
    · intro k hk
      apply dictGet_update_not_mem
      intro p hp hpk
      apply hk
      have hmem : p.1 ∈ (runMetadata FLAGS (v :: rest) v).map Prod.fst :=
        List.mem_map_of_mem Prod.fst hp
      rw [runMetadata_keys] at hmem
      rw [← hpk]
      exact hmem

/-- C7 witness: a one-worker spec whose executor yields one sample. -/
theorem C7_run_witness :
    sampleSpec.vm_groups.workers ≠ [] ∧
    ∃ samples, Run sampleSpec sampleFlags = Except.ok samples ∧
      samples.length
        = (sampleSpec.executorLoadAndRun
            sampleSpec.vm_groups.clients).length := by
  have hne : sampleSpec.vm_groups.workers ≠ [] := by decide
  rcases C7_run_metadata sampleSpec sampleFlags hne with ⟨samples, hok, hlen, _⟩
  exact ⟨hne, samples, hok, hlen⟩

/-- C7 counterexample: with an empty workers group Run raises IndexError
(aerospike_vms[0] is out of range) instead of returning the LoadAndRun
samples, so the claim fails on that benchmark_spec. -/
theorem C7_empty_workers_counterexample :
    Run emptyWorkersSpec sampleFlags = Except.error RunError.indexError ∧
    ¬ ∃ samples, Run emptyWorkersSpec sampleFlags = Except.ok samples := by
  refine ⟨rfl, ?_⟩
  rintro ⟨samples, hs⟩
  simp [Run, emptyWorkersSpec] at hs

end Aerospike
